import Mathlib

/-!
Shallow embedding of the StudentProfileManagementSystem dashboard logic.

The repository contains two variants of the same Angular component:
* the richer variant (with a human-friendly `uid` field, a load-time
  migration/uniqueness pass, and zero-slice omission in the chart data), and
* the simpler variant (no `uid`, no migration, chart data always lists
  both labels).

Pure logic (filtering, statistics, chart data, id generation, the
normalization and uniqueness passes of `load`) is embedded as Lean
functions.  The component instance state (`students`, `filteredStudents`,
counters, edit-modal flags) is embedded as an explicit `DashState` record,
and each mutating method (`addStudent`, `deleteStudent`, `saveEdit`,
`onAttendanceChange`, ...) as a state transformer.  The browser
`localStorage` slot is embedded as an `Option Persisted` field: `none` is
an absent slot, `Persisted.arr es` a slot holding a JSON array that parses
to the expected structure, and `Persisted.malformed` a slot whose content
`JSON.parse` rejects (the exception is modelled with `Except`).

`Date.now()` and `Math.random()` are external nondeterminism; they enter
as explicit parameters: `now` for the timestamp, and `gen : Nat → String`
for the stream of successive `makeUID()` results consumed by `load`
(threaded with a call counter).
-/

namespace StudentDashboard

/-- The `Att` union type of the source: attendance state of a record. -/
inductive Att
  | Present
  | Absent
deriving DecidableEq

/-- The `Type` union type of the source (renamed, `Type` is reserved in Lean):
the category of a record. -/
inductive SType
  | School
  | College
deriving DecidableEq

/-- The `Filter` union type of the source: the active filter selector. -/
inductive FilterSel
  | All
  | Present
  | Absent
  | School
  | College
deriving DecidableEq

/-- The `Student` interface of the richer variant. -/
structure Student where
  id : Int
  uid : String
  name : String
  type : SType
  attendance : Att
deriving DecidableEq

/-- The `Student` interface of the simpler variant (no `uid`). -/
structure SimpleStudent where
  id : Int
  name : String
  type : SType
  attendance : Att
deriving DecidableEq

/-- A persisted entry as `JSON.parse` hands it to the migration code:
every field may be missing (`undefined`).  The `type` and `attendance`
fields are compared against string literals, so they are kept as strings. -/
structure RawStudent where
  id : Option Int
  uid : Option String
  name : Option String
  type : Option String
  attendance : Option String
deriving DecidableEq

/-- Content of the `localStorage` slot: either a JSON array of raw
entries, or data that `JSON.parse` rejects. -/
inductive Persisted
  | arr (entries : List RawStudent)
  | malformed
deriving DecidableEq

/-- String form of a category, as `JSON.stringify` writes it. -/
def stypeStr : SType → String
  | .School => "School"
  | .College => "College"

/-- String form of an attendance state, as `JSON.stringify` writes it. -/
def attStr : Att → String
  | .Present => "Present"
  | .Absent => "Absent"

/-- `JSON.stringify` of one student record: every field present. -/
def Student.toRaw (s : Student) : RawStudent :=
  { id := some s.id
    uid := some s.uid
    name := some s.name
    type := some (stypeStr s.type)
    attendance := some (attStr s.attendance) }

/-- `JSON.stringify(this.students)` written into the slot by `save()`. -/
def saveList (l : List Student) : Persisted :=
  Persisted.arr (l.map Student.toRaw)

/-- `raw ? JSON.parse(raw) : []` — an absent slot yields the empty array,
malformed content throws (modelled as `Except.error`). -/
def jsonParse : Option Persisted → Except Unit (List RawStudent)
  | none => .ok []
  | some (.arr es) => .ok es
  | some .malformed => .error ()

/-- `s.type === 'College' ? 'College' : 'School'` from the migration map. -/
def parseType (t : Option String) : SType :=
  if t = some "College" then SType.College else SType.School

/-- `s.attendance === 'Absent' ? 'Absent' : 'Present'` from the migration map. -/
def parseAtt (a : Option String) : Att :=
  if a = some "Absent" then Att.Absent else Att.Present

/-- Migration of one parsed entry (the body of the `parsed.map` callback in
`load`): defaults for missing fields, permissive parsing of the enums.
The second component is the updated `makeUID()` call counter. -/
def normalizeOne (now : Int) (gen : Nat → String) (k : Nat) (r : RawStudent) :
    Student × Nat :=
  match r.uid with
  | some u =>
      ({ id := r.id.getD now, uid := u, name := r.name.getD "",
         type := parseType r.type, attendance := parseAtt r.attendance }, k)
  | none =>
      ({ id := r.id.getD now, uid := gen k, name := r.name.getD "",
         type := parseType r.type, attendance := parseAtt r.attendance }, k + 1)

/-- `parsed.map(...)` of `load`, threading the `makeUID()` call counter. -/
def normalizeList (now : Int) (gen : Nat → String) :
    Nat → List RawStudent → List Student × Nat
  | k, [] => ([], k)
  | k, r :: rs =>
      let p := normalizeOne now gen k r
      let q := normalizeList now gen p.2 rs
      (p.1 :: q.1, q.2)

/-- The uniqueness pass of `load`: walk the records in order with a `seen`
set; a `uid` already seen is replaced by a fresh `makeUID()` (the next
`gen` value); the (possibly new) `uid` is then added to `seen`. -/
def uniquify (gen : Nat → String) :
    Nat → List String → List Student → List Student × Nat
  | k, _seen, [] => ([], k)
  | k, seen, s :: rest =>
      if s.uid ∈ seen then
        let s2 : Student := { s with uid := gen k }
        let q := uniquify gen (k + 1) (s2.uid :: seen) rest
        (s2 :: q.1, q.2)
      else
        let q := uniquify gen k (s.uid :: seen) rest
        (s :: q.1, q.2)

/-- `load()` of the richer variant: parse the slot (an absent slot is the
empty array, malformed content propagates the `JSON.parse` exception),
migrate each entry, then run the uniqueness pass.  Returns the resulting
store together with the final `makeUID()` call counter. -/
def load (slot : Option Persisted) (now : Int) (gen : Nat → String) (k : Nat) :
    Except Unit (List Student × Nat) :=
  match jsonParse slot with
  | .error e => .error e
  | .ok rs =>
      let p := normalizeList now gen k rs
      let q := uniquify gen p.2 [] p.1
      .ok (q.1, q.2)

/-- Component instance state of the richer variant. -/
structure DashState where
  students : List Student
  filteredStudents : List Student
  currentFilter : FilterSel
  totalCount : Nat
  presentCount : Nat
  absentCount : Nat
  storage : Option Persisted
  showEditModal : Bool
  modalClosing : Bool
  editModel : Option Student
deriving DecidableEq

/-- `save()`: write the serialized canonical list into the slot. -/
def saveState (st : DashState) : DashState :=
  { st with storage := some (saveList st.students) }

/-- The `switch` of `applyFilter`: derive the view subset. -/
def filterFn : FilterSel → List Student → List Student
  | .Present, l => l.filter (fun s => decide (s.attendance = Att.Present))
  | .Absent, l => l.filter (fun s => decide (s.attendance = Att.Absent))
  | .School, l => l.filter (fun s => decide (s.type = SType.School))
  | .College, l => l.filter (fun s => decide (s.type = SType.College))
  | .All, l => l

/-- `updateStats()`: recompute the three counters from the filtered view. -/
def updateStats (st : DashState) : DashState :=
  { st with
    totalCount := st.filteredStudents.length
    presentCount :=
      (st.filteredStudents.filter (fun s => decide (s.attendance = Att.Present))).length
    absentCount :=
      (st.filteredStudents.filter (fun s => decide (s.attendance = Att.Absent))).length }

/-- `applyFilter(f)`: set the current filter, recompute the view subset,
then the stats (chart rendering is a display effect, outside the state). -/
def applyFilter (f : FilterSel) (st : DashState) : DashState :=
  updateStats { st with currentFilter := f, filteredStudents := filterFn f st.students }

/-- Mutation performed by `this.students[idx].attendance = att` after
`findIndex`: update the first record whose `id` matches. -/
def updateFirstById (sid : Int) (f : Student → Student) : List Student → List Student
  | [] => []
  | s :: rest =>
      if s.id = sid then f s :: rest else s :: updateFirstById sid f rest

/-- `onAttendanceChange(student, att)`: if some record has the given `id`,
update its attendance in place, persist and re-derive; otherwise nothing. -/
def onAttendanceChange (sid : Int) (att : Att) (st : DashState) : DashState :=
  if st.students.any (fun s => decide (s.id = sid)) then
    applyFilter st.currentFilter
      (saveState
        { st with
          students :=
            updateFirstById sid (fun s => { s with attendance := att }) st.students })
  else st

/-- `deleteStudent(id)` after the confirmation dialog returned yes:
filter out every record with the given `id`, persist, re-derive. -/
def deleteConfirmed (sid : Int) (st : DashState) : DashState :=
  applyFilter st.currentFilter
    (saveState { st with students := st.students.filter (fun s => decide (s.id ≠ sid)) })

/-- `openEdit(student)`: store a clone as the working copy, open the modal. -/
def openEdit (s : Student) (st : DashState) : DashState :=
  { st with editModel := some s, showEditModal := true }

/-- The synchronous part of `cancelEdit()`: start the exit animation. -/
def cancelEditBegin (st : DashState) : DashState :=
  { st with modalClosing := true }

/-- The `setTimeout` callback of `cancelEdit()`: close the modal and
discard the working copy. -/
def cancelEditFinalize (st : DashState) : DashState :=
  { st with showEditModal := false, modalClosing := false, editModel := none }

/-- `saveEdit()`: with a working copy present, commit it over the first
record with a matching `id` (persist and re-derive) when one exists;
in every case call `cancelEdit()` (modelled by its synchronous part). -/
def saveEdit (st : DashState) : DashState :=
  match st.editModel with
  | none => st
  | some m =>
      cancelEditBegin
        (if st.students.any (fun s => decide (s.id = m.id)) then
          applyFilter st.currentFilter
            (saveState
              { st with students := updateFirstById m.id (fun _ => m) st.students })
        else st)

/-- `String.prototype.trim`: strip whitespace from both ends (executable
model; Lean's builtin `String.trim` is not kernel-reducible). -/
def trimStr (s : String) : String :=
  String.mk
    (((s.data.dropWhile Char.isWhitespace).reverse.dropWhile Char.isWhitespace).reverse)

/-- The `newStudent` record literal of the richer variant: generated ids,
the (already trimmed) name, the chosen category, attendance defaulted to
Present. -/
def newStudentRich (name : String) (t : SType) (now : Int) (uid : String) : Student :=
  { id := now, uid := uid, name := name, type := t, attendance := Att.Present }

/-- The `newStudent` record literal of the simpler variant: no `uid`,
attendance defaulted to Absent. -/
def newStudentSimple (name : String) (t : SType) (now : Int) : SimpleStudent :=
  { id := now, name := name, type := t, attendance := Att.Absent }

/-- `addStudent()` of the richer variant, restricted to the canonical
list: reject a blank trimmed name, else push the new record. -/
def addStudentRich (formName : String) (formType : SType) (now : Int)
    (uid : String) (l : List Student) : List Student :=
  let name := trimStr formName
  if name = "" then l
  else l ++ [newStudentRich name formType now uid]

/-- `addStudent()` of the simpler variant, restricted to the canonical
list: identical guard and fields except for `uid` and the default. -/
def addStudentSimple (formName : String) (formType : SType) (now : Int)
    (l : List SimpleStudent) : List SimpleStudent :=
  let name := trimStr formName
  if name = "" then l
  else l ++ [newStudentSimple name formType now]

/-- Chart data series of the richer variant (`renderChart`): both labels
paired with their counts, zero-valued slices filtered out. -/
def chartDataRich (present absent : Nat) : List (String × Nat) :=
  ([("Present", present), ("Absent", absent)]).filter (fun d => decide (0 < d.2))

/-- Chart data series of the simpler variant: both labels always. -/
def chartDataSimple (present absent : Nat) : List (String × Nat) :=
  [("Present", present), ("Absent", absent)]

/-- One base-36 digit, uppercased (the composition of `toString(36)` and
`toUpperCase` digit by digit). -/
def b36Char (d : Nat) : Char :=
  if d < 10 then Char.ofNat (48 + d) else Char.ofNat (55 + d)

/-- Digit loop of `toString(36)`, driven by a fuel argument so that the
kernel can evaluate it (the fuel strictly bounds the recursion depth and
any fuel past the digit count gives the full expansion). -/
def natToB36Aux : Nat → Nat → List Char
  | 0, _ => []
  | fuel + 1, n =>
      if n < 36 then [b36Char n]
      else natToB36Aux fuel (n / 36) ++ [b36Char (n % 36)]

/-- `n.toString(36).toUpperCase()` for a nonnegative integer: most
significant digit first (`n + 1` is always enough fuel). -/
def natToB36 (n : Nat) : List Char := natToB36Aux (n + 1) n

/-- `slice(-4)` on a list of characters: the rightmost four, or the whole
list when it is shorter. -/
def takeLast (k : Nat) (l : List Char) : List Char :=
  l.drop (l.length - k)

/-- `makeUID()`.  `now` is `Date.now()`; `rnd` is the base-36 fractional
expansion of the `Math.random()` value, so that
`Math.random().toString(36)` is `"0." ++ rnd` (empty for zero), and
`slice(2, 6)` keeps the first four of those digits. -/
def makeUID (now : Nat) (rnd : List Nat) : String :=
  "STU-" ++ String.mk (takeLast 4 (natToB36 now))
    ++ String.mk ((rnd.take 4).map b36Char)

/-! ## Concrete sample data (used by witnesses) -/

def stAlice : Student :=
  { id := 1, uid := "STU-AAAA", name := "Alice", type := SType.School,
    attendance := Att.Present }

def stBob : Student :=
  { id := 2, uid := "STU-BBBB", name := "Bob", type := SType.College,
    attendance := Att.Absent }

def stCarolDup : Student :=
  { id := 1, uid := "STU-CCCC", name := "Carol", type := SType.School,
    attendance := Att.Absent }

def stGhost : Student :=
  { id := 42, uid := "STU-GGGG", name := "Ghost", type := SType.School,
    attendance := Att.Absent }

def demoState : DashState :=
  { students := [stAlice], filteredStudents := [stAlice],
    currentFilter := FilterSel.All, totalCount := 1, presentCount := 1,
    absentCount := 0, storage := some (saveList [stAlice]),
    showEditModal := false, modalClosing := false, editModel := none }

def delState : DashState :=
  { students := [stAlice, stBob, stCarolDup],
    filteredStudents := [stAlice, stBob, stCarolDup],
    currentFilter := FilterSel.All, totalCount := 3, presentCount := 1,
    absentCount := 2, storage := some (saveList [stAlice, stBob, stCarolDup]),
    showEditModal := false, modalClosing := false, editModel := none }

def editState : DashState :=
  { demoState with editModel := some stGhost, showEditModal := true }

/-- A concrete injective id-generator stream: `j` maps to a string of
`j + 1` copies of `G`. -/
def genG (j : Nat) : String := String.mk (List.replicate (j + 1) 'G')

/-- A persisted entry whose `displayId` duplicates another entry. -/
def rawDupA : RawStudent :=
  { id := some 1, uid := some "STU-AAAA", name := some "Alice",
    type := some "School", attendance := some "Present" }

def stA1 : Student :=
  { id := 1, uid := "STU-AAAA", name := "Alice", type := SType.School,
    attendance := Att.Present }

def stA2 : Student :=
  { id := 1, uid := genG 0, name := "Alice", type := SType.School,
    attendance := Att.Present }

/-! ## Helper lemmas -/

theorem countP_filter_of_imp {α : Type} (p q : α → Bool) (l : List α)
    (h : ∀ a, q a = true → p a = true) :
    (l.filter p).countP q = l.countP q := by
  induction l with
  | nil => rfl
  | cons s rest ih =>
      by_cases hp : p s = true
      · by_cases hq : q s = true <;>
          simp [List.filter_cons, List.countP_cons, hp, hq, ih]
      · have hq : q s = false := by
          cases hqv : q s
          · rfl
          · exact absurd (h s hqv) hp
        simp [List.filter_cons, List.countP_cons, hp, hq, ih]

theorem length_filter_present_add_absent (l : List Student) :
    (l.filter (fun s => decide (s.attendance = Att.Present))).length
      + (l.filter (fun s => decide (s.attendance = Att.Absent))).length
      = l.length := by
  induction l with
  | nil => rfl
  | cons s rest ih =>
      cases h : s.attendance <;> simp [List.filter_cons, h] <;> omega

/-! ## Claims -/

/-- C5: for every filtered subset (any selector applied to any state), the
aggregator yields total = size of the subset, presentCount = number of
records in the subset whose attendance is Present, absentCount = number
whose attendance is Absent, and presentCount + absentCount = total. -/
theorem applyFilter_stats_consistent (f : FilterSel) (st : DashState) :
    (applyFilter f st).totalCount = (applyFilter f st).filteredStudents.length ∧
    (applyFilter f st).presentCount
      = (applyFilter f st).filteredStudents.countP
          (fun s => decide (s.attendance = Att.Present)) ∧
    (applyFilter f st).absentCount
      = (applyFilter f st).filteredStudents.countP
          (fun s => decide (s.attendance = Att.Absent)) ∧
    (applyFilter f st).presentCount + (applyFilter f st).absentCount
      = (applyFilter f st).totalCount := by
  refine ⟨rfl, ?_, ?_, ?_⟩
  · simp [applyFilter, updateStats, List.countP_eq_length_filter]
  · simp [applyFilter, updateStats, List.countP_eq_length_filter]
  · exact length_filter_present_add_absent _

/-- C4 counterexample: the simpler variant keeps zero-valued slices; at
counts (5, 0) its series still contains the Absent entry with value 0,
so it is not equal to the Present-only series. -/
theorem chartDataSimple_keeps_zero_slice :
    chartDataSimple 5 0 = [("Present", 5), ("Absent", 0)] ∧
    ¬(∀ d ∈ chartDataSimple 5 0, 0 < d.2) ∧
    chartDataSimple 5 0 ≠ [("Present", 5)] := by
  refine ⟨rfl, ?_, by decide⟩
  intro h
  exact absurd (h ("Absent", 0) (by simp [chartDataSimple])) (by decide)

/-- C4 (amended): in the richer variant, for every pair of counts with a
positive sum, the series has one entry per label with positive value only
(zero-valued slices are omitted) and is nonempty; the simpler variant
instead keeps zero-valued entries. -/
theorem chartDataRich_omits_zero_slices (p a : Nat) (h : 0 < p + a) :
    (∀ d ∈ chartDataRich p a, 0 < d.2) ∧
    chartDataRich p a
      = (if 0 < p then [("Present", p)] else [])
        ++ (if 0 < a then [("Absent", a)] else []) ∧
    chartDataRich p a ≠ [] := by
  refine ⟨?_, ?_, ?_⟩
  · intro d hd
    simpa using (List.mem_filter.mp hd).2
  · by_cases hp : 0 < p <;> by_cases ha : 0 < a <;>
      simp [chartDataRich, List.filter_cons, hp, ha]
  · rcases Nat.eq_zero_or_pos p with hp | hp
    · have ha : 0 < a := by omega
      simp [chartDataRich, List.filter_cons, hp, ha]
    · simp [chartDataRich, List.filter_cons, hp]

/-- C4 witness: at counts (5, 0) the richer variant omits the Absent
entry and every entry of the series is positive. -/
theorem chartDataRich_omits_zero_slices_witness :
    chartDataRich 5 0 = [("Present", 5)] ∧ (∀ d ∈ chartDataRich 5 0, 0 < d.2) :=
  ⟨by decide, (chartDataRich_omits_zero_slices 5 0 (by decide)).1⟩

/-- C3 (amended): load on an absent slot yields the empty store, but on a
malformed slot it propagates the parse failure (the implementation would
crash on corrupt storage) instead of treating it as empty. -/
theorem load_absent_empty_malformed_propagates :
    (∀ now gen k, load none now gen k = Except.ok ([], k)) ∧
    (∀ now gen k, load (some Persisted.malformed) now gen k = Except.error ()) :=
  ⟨fun _ _ _ => rfl, fun _ _ _ => rfl⟩

/-- C3 counterexample: at a concrete malformed slot, load returns the
parse error, not the empty store. -/
theorem load_malformed_counterexample :
    load (some Persisted.malformed) 0 (fun _ => "") 0 = Except.error () ∧
    load (some Persisted.malformed) 0 (fun _ => "") 0 ≠ Except.ok ([], 0) :=
  ⟨rfl, fun h => Except.noConfusion h⟩

/-- C6: when no record in the canonical list carries the targeted
`internalId`, the attendance toggle is a complete no-op: the whole
component state (canonical list, persisted slot, derived filtered view,
counters, modal flags) is unchanged. -/
theorem onAttendanceChange_stale_id_noop (sid : Int) (att : Att) (st : DashState)
    (h : ∀ s ∈ st.students, s.id ≠ sid) :
    onAttendanceChange sid att st = st := by
  have hc : st.students.any (fun s => decide (s.id = sid)) = false := by
    rw [List.any_eq_false]
    intro s hs
    simpa using h s hs
  simp [onAttendanceChange, hc]

/-- C6 witness: toggling attendance for the absent id 99 leaves the
sample state untouched. -/
theorem onAttendanceChange_stale_id_noop_witness :
    onAttendanceChange 99 Att.Absent demoState = demoState :=
  onAttendanceChange_stale_id_noop 99 Att.Absent demoState (by decide)

/-- C9: the confirmed delete removes every record whose `internalId`
equals the given id (not only the first match): no survivor matches, the
result is a sublist of the original (relative order preserved), and every
record with a different id keeps its multiplicity. -/
theorem deleteConfirmed_removes_all_matches (sid : Int) (st : DashState) :
    (∀ s ∈ (deleteConfirmed sid st).students, s.id ≠ sid) ∧
    List.Sublist (deleteConfirmed sid st).students st.students ∧
    (∀ s ∈ st.students, s.id ≠ sid →
      (deleteConfirmed sid st).students.countP (fun t => decide (t = s))
        = st.students.countP (fun t => decide (t = s))) := by
  have hst : (deleteConfirmed sid st).students
      = st.students.filter (fun s => decide (s.id ≠ sid)) := rfl
  refine ⟨?_, ?_, ?_⟩
  · intro s hs
    rw [hst] at hs
    simpa using (List.mem_filter.mp hs).2
  · rw [hst]
    exact List.filter_sublist _
  · intro s _hs hne
    rw [hst]
    refine countP_filter_of_imp _ _ _ ?_
    intro t ht
    have hts : t = s := by simpa using ht
    subst hts
    simpa using hne
/-- C9 witness: deleting id 1 in a store holding two records with id 1
and one with id 2 keeps the multiplicity of the id-2 record. -/
theorem deleteConfirmed_removes_all_matches_witness :
    (deleteConfirmed 1 delState).students.countP (fun t => decide (t = stBob))
      = delState.students.countP (fun t => decide (t = stBob)) :=
  (deleteConfirmed_removes_all_matches 1 delState).2.2 stBob (by decide) (by decide)

/-- C10: committing an edit whose working copy matches no canonical
record leaves the canonical list, the persisted slot and the filtered
view unchanged, yet still initiates the modal close, after which the
working copy is discarded. -/
theorem saveEdit_stale_id_discards_edit (st : DashState) (m : Student)
    (hm : st.editModel = some m) (h : ∀ s ∈ st.students, s.id ≠ m.id) :
    (saveEdit st).students = st.students ∧
    (saveEdit st).storage = st.storage ∧
    (saveEdit st).filteredStudents = st.filteredStudents ∧
    (saveEdit st).modalClosing = true ∧
    (cancelEditFinalize (saveEdit st)).editModel = none ∧
    (cancelEditFinalize (saveEdit st)).showEditModal = false := by
  have hc : st.students.any (fun s => decide (s.id = m.id)) = false := by
    rw [List.any_eq_false]
    intro s hs
    simpa using h s hs
  simp [saveEdit, hm, hc, cancelEditBegin, cancelEditFinalize]

/-- C10 witness: committing an edit of the ghost record (id 42, not in
the store) changes neither the list nor the slot, but closes the modal. -/
theorem saveEdit_stale_id_discards_edit_witness :
    (saveEdit editState).students = editState.students ∧
    (saveEdit editState).storage = editState.storage ∧
    (saveEdit editState).modalClosing = true ∧
    (cancelEditFinalize (saveEdit editState)).editModel = none :=
  ⟨(saveEdit_stale_id_discards_edit editState stGhost rfl (by decide)).1,
   (saveEdit_stale_id_discards_edit editState stGhost rfl (by decide)).2.1,
   (saveEdit_stale_id_discards_edit editState stGhost rfl (by decide)).2.2.2.1,
   (saveEdit_stale_id_discards_edit editState stGhost rfl (by decide)).2.2.2.2.1⟩

/-- C7: on a non-blank trimmed name, both variants append exactly one new
record; the records agree on the id, name and category derived from the
inputs, but the richer variant defaults attendance to Present while the
simpler one defaults to Absent, so the two add operations differ. -/
theorem addStudent_variants_agree_except_attendance (name : String) (t : SType)
    (now : Int) (uid : String) (l : List Student) (ls : List SimpleStudent)
    (h : trimStr name ≠ "") :
    addStudentRich name t now uid l = l ++ [newStudentRich (trimStr name) t now uid] ∧
    addStudentSimple name t now ls = ls ++ [newStudentSimple (trimStr name) t now] ∧
    (newStudentRich (trimStr name) t now uid).id = (newStudentSimple (trimStr name) t now).id ∧
    (newStudentRich (trimStr name) t now uid).name
      = (newStudentSimple (trimStr name) t now).name ∧
    (newStudentRich (trimStr name) t now uid).type
      = (newStudentSimple (trimStr name) t now).type ∧
    (newStudentRich (trimStr name) t now uid).attendance = Att.Present ∧
    (newStudentSimple (trimStr name) t now).attendance = Att.Absent ∧
    (newStudentRich (trimStr name) t now uid).attendance
      ≠ (newStudentSimple (trimStr name) t now).attendance := by
  refine ⟨?_, ?_, rfl, rfl, rfl, rfl, rfl, ?_⟩
  · simp [addStudentRich, h]
  · simp [addStudentSimple, h]
  · simp [newStudentRich, newStudentSimple]

/-- C7 witness: adding "Alice" (School) at time 7 appends the two
variants' records, which differ exactly in the attendance default. -/
theorem addStudent_variants_agree_except_attendance_witness :
    addStudentRich "Alice" SType.School 7 "STU-XYZ0" []
      = [] ++ [newStudentRich (trimStr "Alice") SType.School 7 "STU-XYZ0"] ∧
    (newStudentRich (trimStr "Alice") SType.School 7 "STU-XYZ0").attendance
      ≠ (newStudentSimple (trimStr "Alice") SType.School 7).attendance :=
  ⟨(addStudent_variants_agree_except_attendance "Alice" SType.School 7 "STU-XYZ0"
      [] [] (by decide)).1,
   (addStudent_variants_agree_except_attendance "Alice" SType.School 7 "STU-XYZ0"
      [] [] (by decide)).2.2.2.2.2.2.2⟩

/-! ## Round-trip and uniqueness machinery -/

theorem normalizeOne_toRaw (now : Int) (gen : Nat → String) (k : Nat) (s : Student) :
    normalizeOne now gen k s.toRaw = (s, k) := by
  cases s with
  | mk id uid name ty att =>
      cases ty <;> cases att <;>
        simp [normalizeOne, Student.toRaw, stypeStr, attStr, parseType, parseAtt]

theorem normalizeList_map_toRaw (now : Int) (gen : Nat → String) (l : List Student) :
    ∀ k, normalizeList now gen k (l.map Student.toRaw) = (l, k) := by
  induction l with
  | nil => intro k; rfl
  | cons s rest ih =>
      intro k
      simp [normalizeList, normalizeOne_toRaw, ih]

theorem uniquify_nodup_id (gen : Nat → String) (l : List Student) :
    ∀ k seen, (l.map Student.uid).Nodup →
      (∀ u ∈ l.map Student.uid, u ∉ seen) →
      uniquify gen k seen l = (l, k) := by
  induction l with
  | nil => intro k seen _ _; rfl
  | cons s rest ih =>
      intro k seen hnd hdis
      have hs : s.uid ∉ seen := hdis s.uid (by simp)
      have hnd2 : (rest.map Student.uid).Nodup := by
        rw [List.map_cons, List.nodup_cons] at hnd
        exact hnd.2
      have hhead : s.uid ∉ rest.map Student.uid := by
        rw [List.map_cons, List.nodup_cons] at hnd
        exact hnd.1
      have hdis2 : ∀ u ∈ rest.map Student.uid, u ∉ (s.uid :: seen) := by
        intro u hu
        rw [List.mem_cons]
        rintro (rfl | hu2)
        · exact hhead hu
        · exact hdis u (by simp [hu]) hu2
      simp [uniquify, hs, ih k (s.uid :: seen) hnd2 hdis2]

/-- C2: for an already-well-formed store (every field present by typing,
enums in range, pairwise-distinct displayIds), loading what was saved
returns exactly the same sequence (and consumes no generated ids). -/
theorem load_save_roundtrip (l : List Student)
    (h : (l.map Student.uid).Nodup) (now : Int) (gen : Nat → String) (k : Nat) :
    load (some (saveList l)) now gen k = Except.ok (l, k) := by
  simp [load, saveList, jsonParse, normalizeList_map_toRaw,
    uniquify_nodup_id gen l k [] h (by simp)]

/-- C2 witness: a concrete duplicate-free two-record store round-trips
exactly. -/
theorem load_save_roundtrip_witness :
    load (some (saveList [stAlice, stBob])) 0 (fun _ => "") 0
      = Except.ok ([stAlice, stBob], 0) :=
  load_save_roundtrip [stAlice, stBob] (by decide) 0 (fun _ => "") 0

theorem normalizeList_uid_spec (now : Int) (gen : Nat → String)
    (rs : List RawStudent) :
    ∀ k, k ≤ (normalizeList now gen k rs).2 ∧
      ∀ s ∈ (normalizeList now gen k rs).1,
        (∃ r ∈ rs, r.uid = some s.uid) ∨
        ∃ j, k ≤ j ∧ j < (normalizeList now gen k rs).2 ∧ s.uid = gen j := by
  induction rs with
  | nil => intro k; exact ⟨Nat.le_refl k, by simp [normalizeList]⟩
  | cons r rest ih =>
      intro k
      cases hr : r.uid with
      | some u =>
          have hunf : normalizeList now gen k (r :: rest)
              = (({ id := r.id.getD now, uid := u, name := r.name.getD "",
                    type := parseType r.type,
                    attendance := parseAtt r.attendance } : Student)
                  :: (normalizeList now gen k rest).1,
                 (normalizeList now gen k rest).2) := by
            simp [normalizeList, normalizeOne, hr]
          obtain ⟨hle, hmem⟩ := ih k
          rw [hunf]
          refine ⟨hle, ?_⟩
          intro s hs
          rcases List.mem_cons.mp hs with rfl | hs2
          · exact Or.inl ⟨r, by simp, by simp [hr]⟩
          · rcases hmem s hs2 with ⟨r2, hr2, hru⟩ | ⟨j, hj1, hj2, hju⟩
            · exact Or.inl ⟨r2, by simp [hr2], hru⟩
            · exact Or.inr ⟨j, hj1, hj2, hju⟩
      | none =>
          have hunf : normalizeList now gen k (r :: rest)
              = (({ id := r.id.getD now, uid := gen k, name := r.name.getD "",
                    type := parseType r.type,
                    attendance := parseAtt r.attendance } : Student)
                  :: (normalizeList now gen (k + 1) rest).1,
                 (normalizeList now gen (k + 1) rest).2) := by
            simp [normalizeList, normalizeOne, hr]
          obtain ⟨hle, hmem⟩ := ih (k + 1)
          rw [hunf]
          refine ⟨by omega, ?_⟩
          intro s hs
          rcases List.mem_cons.mp hs with rfl | hs2
          · exact Or.inr ⟨k, Nat.le_refl k, by omega, rfl⟩
          · rcases hmem s hs2 with ⟨r2, hr2, hru⟩ | ⟨j, hj1, hj2, hju⟩
            · exact Or.inl ⟨r2, by simp [hr2], hru⟩
            · exact Or.inr ⟨j, by omega, hj2, hju⟩

theorem normalized_uids_fresh (now : Int) (gen : Nat → String)
    (hinj : Function.Injective gen) (rs : List RawStudent) (k : Nat)
    (hfresh : ∀ r ∈ rs, ∀ u, r.uid = some u → ∀ j, u ≠ gen j) :
    ∀ s ∈ (normalizeList now gen k rs).1,
      ∀ j, (normalizeList now gen k rs).2 ≤ j → s.uid ≠ gen j := by
  intro s hs j hj
  rcases (normalizeList_uid_spec now gen rs k).2 s hs with
    ⟨r, hr, hru⟩ | ⟨j0, _, hj0, hju⟩
  · exact hfresh r hr s.uid hru j
  · rw [hju]
    intro hcon
    have : j0 = j := hinj hcon
    omega

theorem uniquify_uids_nodup (gen : Nat → String)
    (hinj : Function.Injective gen) (l : List Student) :
    ∀ k seen,
      (∀ s ∈ l, ∀ j, k ≤ j → s.uid ≠ gen j) →
      (∀ x ∈ seen, ∀ j, k ≤ j → x ≠ gen j) →
      ((uniquify gen k seen l).1.map Student.uid).Nodup ∧
      (∀ u ∈ (uniquify gen k seen l).1.map Student.uid, u ∉ seen) := by
  induction l with
  | nil => intro k seen _ _; exact ⟨by simp [uniquify], by simp [uniquify]⟩
  | cons s rest ih =>
      intro k seen hl hseen
      by_cases hmem : s.uid ∈ seen
      · have hunf : uniquify gen k seen (s :: rest)
            = (({ s with uid := gen k } : Student)
                :: (uniquify gen (k + 1) (gen k :: seen) rest).1,
               (uniquify gen (k + 1) (gen k :: seen) rest).2) := by
          simp [uniquify, hmem]
        have hl2 : ∀ s2 ∈ rest, ∀ j, k + 1 ≤ j → s2.uid ≠ gen j := by
          intro s2 hs2 j hj
          exact hl s2 (by simp [hs2]) j (by omega)
        have hseen2 : ∀ x ∈ (gen k :: seen), ∀ j, k + 1 ≤ j → x ≠ gen j := by
          intro x hx j hj
          rcases List.mem_cons.mp hx with rfl | hx2
          · intro hcon
            have : k = j := hinj hcon
            omega
          · exact hseen x hx2 j (by omega)
        obtain ⟨hnd, hnin⟩ := ih (k + 1) (gen k :: seen) hl2 hseen2
        rw [hunf]
        constructor
        · rw [List.map_cons, List.nodup_cons]
          refine ⟨?_, hnd⟩
          intro hcon
          exact hnin (gen k) hcon (by simp)
        · intro u hu
          rw [List.map_cons, List.mem_cons] at hu
          rcases hu with rfl | hu2
          · intro hcon
            exact hseen _ hcon k (Nat.le_refl k) rfl
          · intro hcon
            exact hnin u hu2 (by simp [hcon])
      · have hunf : uniquify gen k seen (s :: rest)
            = (s :: (uniquify gen k (s.uid :: seen) rest).1,
               (uniquify gen k (s.uid :: seen) rest).2) := by
          simp [uniquify, hmem]
        have hl2 : ∀ s2 ∈ rest, ∀ j, k ≤ j → s2.uid ≠ gen j := by
          intro s2 hs2 j hj
          exact hl s2 (by simp [hs2]) j hj
        have hseen2 : ∀ x ∈ (s.uid :: seen), ∀ j, k ≤ j → x ≠ gen j := by
          intro x hx j hj
          rcases List.mem_cons.mp hx with rfl | hx2
          · exact hl s (by simp) j hj
          · exact hseen x hx2 j hj
        obtain ⟨hnd, hnin⟩ := ih k (s.uid :: seen) hl2 hseen2
        rw [hunf]
        constructor
        · rw [List.map_cons, List.nodup_cons]
          refine ⟨?_, hnd⟩
          intro hcon
          exact hnin s.uid hcon (by simp)
        · intro u hu
          rw [List.map_cons, List.mem_cons] at hu
          rcases hu with rfl | hu2
          · exact hmem
          · intro hcon
            exact hnin u hu2 (by simp [hcon])

/-- C1: after `load` completes on any parseable persisted array (however
corrupted: duplicate or missing displayIds included), the displayIds of
the resulting store are pairwise distinct — provided the generated ids
are fresh, i.e. the id stream is injective and avoids every displayId
present in the input (the behaviour the spec means by freshly generated;
`Math.random` collisions are outside the model). -/
theorem load_uids_nodup (rs : List RawStudent) (now : Int) (gen : Nat → String)
    (k : Nat) (hinj : Function.Injective gen)
    (hfresh : ∀ r ∈ rs, ∀ u, r.uid = some u → ∀ j, u ≠ gen j)
    (l : List Student) (k2 : Nat)
    (hload : load (some (Persisted.arr rs)) now gen k = Except.ok (l, k2)) :
    (l.map Student.uid).Nodup := by
  have hfr := normalized_uids_fresh now gen hinj rs k hfresh
  have hmain :=
    (uniquify_uids_nodup gen hinj (normalizeList now gen k rs).1
      (normalizeList now gen k rs).2 [] hfr (by simp)).1
  have hld : load (some (Persisted.arr rs)) now gen k
      = Except.ok
          ((uniquify gen (normalizeList now gen k rs).2 []
              (normalizeList now gen k rs).1).1,
           (uniquify gen (normalizeList now gen k rs).2 []
              (normalizeList now gen k rs).1).2) := rfl
  rw [hld] at hload
  have hpair :
      (uniquify gen (normalizeList now gen k rs).2 []
        (normalizeList now gen k rs).1).1 = l := by
    have := hload
    simp only [Except.ok.injEq, Prod.mk.injEq] at this
    exact this.1
  rw [← hpair]
  exact hmain

theorem genG_inj : Function.Injective genG := by
  intro a b hab
  have hd : List.replicate (a + 1) 'G' = List.replicate (b + 1) 'G' :=
    congrArg String.data hab
  have hlen := congrArg List.length hd
  simp only [List.length_replicate] at hlen
  omega

theorem rawDupA_fresh : ∀ u, rawDupA.uid = some u → ∀ j, u ≠ genG j := by
  intro u hu j hcon
  have hu2 : u = "STU-AAAA" := by
    simpa [rawDupA] using hu.symm
  subst hu2
  have hmem : 'S' ∈ ("STU-AAAA" : String).data := by decide
  rw [hcon] at hmem
  have hmem2 : 'S' ∈ List.replicate (j + 1) 'G' := hmem
  have hsg : 'S' = 'G' := List.eq_of_mem_replicate hmem2
  exact absurd hsg (by decide)

/-- C1 witness: loading two entries that share the displayId STU-AAAA
with the concrete fresh stream `genG` yields pairwise-distinct ids. -/
theorem load_uids_nodup_witness :
    ([stA1, stA2].map Student.uid).Nodup :=
  load_uids_nodup [rawDupA, rawDupA] 0 genG 0 genG_inj
    (by
      intro r hr u hu j
      have hr2 : r = rawDupA := by
        rcases List.mem_cons.mp hr with h1 | h1
        · exact h1
        · simpa using h1
      subst hr2
      exact rawDupA_fresh u hu j)
    [stA1, stA2] 1 rfl

/-! ## makeUID machinery -/

theorem b36Char_digit_or_upper : ∀ d, d < 36 → (b36Char d).isDigit ∨ (b36Char d).isUpper := by
  decide

theorem natToB36Aux_chars (fuel : Nat) :
    ∀ n, ∀ c ∈ natToB36Aux fuel n, ∃ d, d < 36 ∧ c = b36Char d := by
  induction fuel with
  | zero => intro n c hc; simp [natToB36Aux] at hc
  | succ fuel ih =>
      intro n c hc
      by_cases h : n < 36
      · simp [natToB36Aux, h] at hc
        exact ⟨n, h, hc⟩
      · simp [natToB36Aux, h] at hc
        rcases hc with hc | hc
        · exact ih (n / 36) c hc
        · exact ⟨n % 36, Nat.mod_lt _ (by omega), hc⟩

/-- C8 (amended): makeUID is STU- followed by the rightmost up-to-four
characters of the time in uppercase base-36 and up to four uppercase
base-36 characters from the random expansion; whenever the time has at
least four base-36 digits and the random expansion supplies at least four
digits, both parts have exactly four characters and the result has
exactly 12 characters (shorter inputs give a shorter string). -/
theorem makeUID_format (now : Nat) (rnd : List Nat)
    (hA : 4 ≤ (natToB36 now).length) (hB : 4 ≤ rnd.length)
    (hr : ∀ d ∈ rnd, d < 36) :
    makeUID now rnd
      = "STU-" ++ String.mk (takeLast 4 (natToB36 now))
        ++ String.mk ((rnd.take 4).map b36Char) ∧
    (takeLast 4 (natToB36 now)).length = 4 ∧
    ((rnd.take 4).map b36Char).length = 4 ∧
    (∀ c ∈ takeLast 4 (natToB36 now), c.isDigit ∨ c.isUpper) ∧
    (∀ c ∈ (rnd.take 4).map b36Char, c.isDigit ∨ c.isUpper) ∧
    (makeUID now rnd).length = 12 := by
  have h1 : (takeLast 4 (natToB36 now)).length = 4 := by
    simp only [takeLast, List.length_drop]
    omega
  have h2 : ((rnd.take 4).map b36Char).length = 4 := by
    simp only [List.length_map, List.length_take]
    omega
  refine ⟨rfl, h1, h2, ?_, ?_, ?_⟩
  · intro c hc
    have hc2 : c ∈ natToB36 now := List.mem_of_mem_drop hc
    obtain ⟨d, hd, rfl⟩ := natToB36Aux_chars (now + 1) now c hc2
    exact b36Char_digit_or_upper d hd
  · intro c hc
    obtain ⟨d, hd, rfl⟩ := List.mem_map.mp hc
    exact b36Char_digit_or_upper d (hr d (List.mem_of_mem_take hd))
  · show ("STU-" ++ String.mk (takeLast 4 (natToB36 now))
        ++ String.mk ((rnd.take 4).map b36Char)).length = 12
    rw [String.length_append, String.length_append]
    have hm1 : (String.mk (takeLast 4 (natToB36 now))).length = 4 := h1
    have hm2 : (String.mk ((rnd.take 4).map b36Char)).length = 4 := h2
    rw [hm1, hm2]
    rfl

/-- C8 witness: with a realistic timestamp (eight base-36 digits) and
four random digits the result has the stated shape and 12 characters. -/
theorem makeUID_format_witness :
    (makeUID 1700000000000 [10, 11, 12, 13]).length = 12 :=
  (makeUID_format 1700000000000 [10, 11, 12, 13] (by decide) (by decide)
    (by decide)).2.2.2.2.2

/-- C8 counterexample: with `Date.now()` equal to 1700000000000 and a
`Math.random()` value of 0.5 (base-36 expansion a single digit, 18,
since `(0.5).toString(36)` is the three-character string `0.i`), the
result has 9 characters, not 12. -/
theorem makeUID_short_counterexample :
    (makeUID 1700000000000 [18]).length = 9 ∧
    (makeUID 1700000000000 [18]).length ≠ 12 := by
  exact ⟨by decide, by decide⟩

end StudentDashboard
